import Mathlib

/-!
Verification development for the domain capability gate and the vector index
retrieval subsystem of the kode-bricks repository.

Embedded sources:
- src/shared/domains.ts (domain catalog and capability gate)
- packages/types/src/domains.ts (data model)
- src/services/code-index/domain-vector-retriever.ts (retriever and the file
  backed FaissClient, the canonical variant per the design notes)
- the CodeIndexConfigManager (configuration load, normalize and restart logic)

Modelling conventions:
- Vector components and scores are rationals.
- A JavaScript throw is modelled with Except.
- External collaborators absent from the corpus are parameters of the embedded
  functions: the tool group catalog and experiment table (src/shared/tools.ts,
  src/shared/experiments.ts), the JavaScript RegExp engine, the embedding model
  tables (src/shared/embeddingModels.ts), the instruction composer
  (src/core/prompts/sections/custom-instructions.ts), the persisted storage
  read by ContextProxy, and the file read plus JSON parse of a vectors bundle.
-/

/-- JavaScript truthiness of an optional string: present and nonempty.
Used wherever the source tests a possibly undefined string in a condition. -/
def strTruthy : Option String → Bool
  | some s => if s = "" then false else true
  | none => false

/-- GroupOptions from packages/types/src/domains.ts: an optional fileRegex and
an optional description. -/
structure GroupOptions where
  fileRegex : Option String := none
  description : Option String := none
deriving DecidableEq

/-- GroupEntry from packages/types/src/domains.ts: either a bare group name or
a pair of group name and options. -/
inductive GroupEntry where
  | bare (g : String)
  | withOptions (g : String) (opts : GroupOptions)
deriving DecidableEq

/-- getGroupName from src/shared/domains.ts. -/
def getGroupName : GroupEntry → String
  | .bare g => g
  | .withOptions g _ => g

/-- getGroupOptions from src/shared/domains.ts. -/
def getGroupOptions : GroupEntry → Option GroupOptions
  | .bare _ => none
  | .withOptions _ o => some o

/-- DomainConfig from packages/types/src/domains.ts. The source field for
provenance is an enum of global and project, kept here as a string. -/
structure DomainConfig where
  slug : String
  name : String
  roleDefinition : String
  whenToUse : Option String := none
  customInstructions : Option String := none
  groups : List GroupEntry
  source : Option String := none
deriving DecidableEq

/-- Modelled from the spec: the JavaScript RegExp engine, absent from the
corpus as a host feature. Compiling a pattern returns none exactly when the
RegExp constructor throws, and otherwise the test function of the compiled
regular expression. -/
def RegexEngine : Type := String → Option (String → Bool)

/-- doesFileMatchRegex from src/shared/domains.ts: compile the pattern and
test the path; the catch branch returns false when the pattern does not
compile. -/
def doesFileMatchRegex (engine : RegexEngine) (filePath : String) (pattern : String) : Bool :=
  match engine pattern with
  | some test => test filePath
  | none => false

/-- Modelled from the spec: the static tables imported by
src/shared/domains.ts from src/shared/tools.ts and src/shared/experiments.ts,
which are not in the corpus. The spec describes TOOL_GROUPS as a fixed map
from group name to the set of tool identifiers it grants,
ALWAYS_AVAILABLE_TOOLS as the set bypassing all domain scoping, and
EXPERIMENT_IDS as the experiment identifier values. The gate is parameterized
over this record. -/
structure ToolCatalog where
  toolGroups : String → List String
  alwaysAvailableTools : List String
  experimentIds : List String

/-- Built-in healthcare domain, first entry of the domains array in
src/shared/domains.ts. -/
def healthcareDomain : DomainConfig :=
  { slug := "healthcare"
    name := "🏥 Healthcare"
    roleDefinition := "You are Roo, an expert in healthcare technology, medical data analysis, and digital health solutions. You understand healthcare regulations, patient privacy, and can assist with EHR systems, telemedicine, and clinical workflows."
    whenToUse := some "Use this domain for tasks related to healthcare, medical data, patient management, or digital health projects."
    customInstructions := some "Always prioritize patient privacy and regulatory compliance (e.g., HIPAA). Use clear, non-technical language when communicating with healthcare professionals."
    groups := [.bare "read", .bare "edit", .bare "browser", .bare "command", .bare "mcp"] }

/-- Built-in automobile domain. -/
def automobileDomain : DomainConfig :=
  { slug := "automobile"
    name := "🚗 Automobile"
    roleDefinition := "You are Roo, an automotive industry specialist with expertise in vehicle systems, diagnostics, manufacturing processes, and automotive software. You can assist with embedded systems, diagnostics, and automotive standards."
    whenToUse := some "Use this domain for tasks related to vehicles, automotive software, diagnostics, or manufacturing."
    customInstructions := some "Follow automotive safety standards and best practices. Use industry terminology when appropriate."
    groups := [.bare "read", .bare "edit", .bare "browser", .bare "command", .bare "mcp"] }

/-- Built-in manufacturing domain. -/
def manufacturingDomain : DomainConfig :=
  { slug := "manufacturing"
    name := "🏭 Manufacturing"
    roleDefinition := "You are Roo, a manufacturing domain expert skilled in production processes, automation, supply chain management, and industrial IoT. You can help with process optimization, quality control, and digital transformation in manufacturing."
    whenToUse := some "Use this domain for tasks related to manufacturing, industrial automation, or supply chain management."
    customInstructions := some "Emphasize efficiency, safety, and quality control. Use clear documentation for process changes."
    groups := [.bare "read", .bare "edit", .bare "browser", .bare "command", .bare "mcp"] }

/-- Built-in entertainment domain. -/
def entertainmentDomain : DomainConfig :=
  { slug := "entertainment"
    name := "🏭 Entertainment"
    roleDefinition := "You are Roo, a Entertainment domain expert skilled in production processes, automation, supply chain management, and industrial IoT. You can help with process optimization, quality control, and digital transformation in manufacturing."
    whenToUse := some "Use this domain for tasks related to manufacturing, industrial automation, or supply chain management."
    customInstructions := some "Emphasize efficiency, safety, and quality control. Use clear documentation for process changes."
    groups := [.bare "read", .bare "edit", .bare "browser", .bare "command", .bare "mcp"] }

/-- The domains array of src/shared/domains.ts, in declaration order. -/
def domains : List DomainConfig :=
  [healthcareDomain, automobileDomain, manufacturingDomain, entertainmentDomain]

/-- defaultDomainSlug from src/shared/domains.ts. -/
def defaultDomainSlug : String := healthcareDomain.slug

/-- getDomainBySlug from src/shared/domains.ts. The source accepts
customDomains but its body only searches the built-in domains array; the
parameter is kept to mirror the source signature. -/
def getDomainBySlug (slug : String) (customDomains : Option (List DomainConfig)) :
    Option DomainConfig :=
  -- Then check built-in domains
  domains.find? (fun domain => domain.slug = slug)

/-- The forEach body of getAllDomains: replace the first slug match in place,
or append the custom domain. -/
def mergeStep (allDomains : List DomainConfig) (customDomain : DomainConfig) :
    List DomainConfig :=
  match allDomains.findIdx? (fun domain => domain.slug = customDomain.slug) with
  | some index => allDomains.set index customDomain
  | none => allDomains ++ [customDomain]

/-- getAllDomains from src/shared/domains.ts: start from the built-ins and
fold the custom domains through mergeStep. An absent or empty custom list
returns the built-ins unchanged. -/
def getAllDomains (customDomains : Option (List DomainConfig)) : List DomainConfig :=
  match customDomains with
  | none => domains
  | some cs => if cs.length = 0 then domains else cs.foldl mergeStep domains

/-- isCustomDomain from src/shared/domains.ts. -/
def isCustomDomain (slug : String) (customDomains : Option (List DomainConfig)) : Bool :=
  match customDomains with
  | some cs => cs.any (fun domain => domain.slug = slug)
  | none => false

/-- FileRestrictionError from src/shared/domains.ts, carrying the constructor
arguments: domain display name, pattern, optional description and the
offending path. -/
structure FileRestrictionError where
  domain : String
  pattern : String
  description : Option String
  filePath : String
deriving DecidableEq

/-- The tool invocation parameters consulted by the gate: path, diff, content
and the structured operations payload (an array in the source, so its
JavaScript truthiness is plain presence). -/
structure ToolParams where
  path : Option String := none
  diff : Option String := none
  content : Option String := none
  operations : Option (List String) := none
deriving DecidableEq

/-- True when the invocation carries a write payload: diff, content or
operations, under JavaScript truthiness. -/
def paramsHaveWritePayload : Option ToolParams → Bool
  | some tp => strTruthy tp.diff || strTruthy tp.content || tp.operations.isSome
  | none => false

/-- The experiments gating step of isToolAllowedForDomain. The source guards
with: experiments and EXPERIMENT_IDS values include tool; when no experiments
record is supplied the step is skipped entirely. Inside, the tool is denied
when its flag is not truthy. -/
def experimentsDeny (cat : ToolCatalog) (tool : String) :
    Option (List (String × Bool)) → Bool
  | some exps =>
    if tool ∈ cat.experimentIds then
      if exps.lookup tool = some true then false else true
    else false
  | none => false

/-- The tool requirements step of isToolAllowedForDomain: deny when the map is
supplied and marks the tool with a falsy value. The source branch comparing
the requirements argument with the boolean false is unreachable under the
declared record type and has no counterpart here. -/
def toolRequirementsDeny (tool : String) : Option (List (String × Bool)) → Bool
  | some reqs => if reqs.lookup tool = some false then true else false
  | none => false

/-- The group loop of isToolAllowedForDomain: first group whose expanded tool
set contains the tool wins; a bare entry allows, an edit entry with a truthy
fileRegex checks the write payload against the pattern and throws a
FileRestrictionError on a mismatch, any other options allow. -/
def checkDomainGroups (cat : ToolCatalog) (engine : RegexEngine) (tool : String)
    (domainName : String) (toolParams : Option ToolParams) :
    List GroupEntry → Except FileRestrictionError Bool
  | [] => .ok false
  | group :: rest =>
    let groupName := getGroupName group
    if tool ∈ cat.toolGroups groupName then
      match getGroupOptions group with
      | none => .ok true
      | some options =>
        if groupName = "edit" ∧ strTruthy options.fileRegex = true then
          let filePath := toolParams.bind (fun tp => tp.path)
          if strTruthy filePath = true ∧ paramsHaveWritePayload toolParams = true ∧
              doesFileMatchRegex engine (filePath.getD "") (options.fileRegex.getD "") = false then
            .error ⟨domainName, options.fileRegex.getD "", options.description, filePath.getD ""⟩
          else .ok true
        else .ok true
    else checkDomainGroups cat engine tool domainName toolParams rest

/-- isToolAllowedForDomain from src/shared/domains.ts. The thrown
FileRestrictionError is the error branch of the result. -/
def isToolAllowedForDomain (cat : ToolCatalog) (engine : RegexEngine) (tool : String)
    (domainSlug : String) (customDomains : List DomainConfig)
    (toolRequirements : Option (List (String × Bool)))
    (toolParams : Option ToolParams)
    (experiments : Option (List (String × Bool))) :
    Except FileRestrictionError Bool :=
  if tool ∈ cat.alwaysAvailableTools then .ok true
  else if experimentsDeny cat tool experiments = true then .ok false
  else if toolRequirementsDeny tool toolRequirements = true then .ok false
  else
    match getDomainBySlug domainSlug (some customDomains) with
    | none => .ok false
    | some domain => checkDomainGroups cat engine tool domain.name toolParams domain.groups

/-- PromptComponent from packages/types/src/domains.ts. -/
structure PromptComponent where
  roleDefinition : Option String := none
  whenToUse : Option String := none
  customInstructions : Option String := none
deriving DecidableEq

/-- The options record of getFullDomainDetails. -/
structure DomainDetailsOptions where
  cwd : Option String := none
  globalCustomInstructions : Option String := none
  language : Option String := none
deriving DecidableEq

/-- JavaScript or on optional strings: the first operand wins when truthy
(present and nonempty), otherwise the second is returned. -/
def jsOrElse (a : Option String) (b : Option String) : Option String :=
  if strTruthy a = true then a else b

/-- getFullDomainDetails from src/shared/domains.ts. The compose parameter is
the external addCustomInstructions collaborator, applied only when a truthy
cwd is supplied; its arguments are the base instructions, the global
instructions, the cwd, the domain slug and the optional language. -/
def getFullDomainDetails
    (compose : String → String → String → String → Option String → String)
    (domainSlug : String) (customDomains : Option (List DomainConfig))
    (customDomainPrompts : Option (List (String × PromptComponent)))
    (options : Option DomainDetailsOptions) : DomainConfig :=
  let baseDomain :=
    ((getDomainBySlug domainSlug customDomains).orElse (fun _ =>
      domains.find? (fun m => m.slug = domainSlug))).getD healthcareDomain
  let promptComponent := customDomainPrompts.bind (fun ps => ps.lookup domainSlug)
  let baseCustomInstructions :=
    (jsOrElse (promptComponent.bind (fun pc => pc.customInstructions))
      baseDomain.customInstructions).getD ""
  let baseWhenToUse :=
    (jsOrElse (promptComponent.bind (fun pc => pc.whenToUse)) baseDomain.whenToUse).getD ""
  let cwd := options.bind (fun o => o.cwd)
  let fullCustomInstructions :=
    if strTruthy cwd = true then
      compose baseCustomInstructions
        ((options.bind (fun o => o.globalCustomInstructions)).getD "")
        (cwd.getD "") domainSlug (options.bind (fun o => o.language))
    else baseCustomInstructions
  { baseDomain with
    roleDefinition :=
      (jsOrElse (promptComponent.bind (fun pc => pc.roleDefinition))
        (some baseDomain.roleDefinition)).getD ""
    whenToUse := some baseWhenToUse
    customInstructions := some fullCustomInstructions }

/-- One parsed entry of a vectors bundle: an embedding and its text. The file
read and JSON parse are external; functions below take their outcome as an
argument. -/
structure BundleItem where
  embedding : List ℚ
  text : String
deriving DecidableEq

/-- Structured counterparts of the error messages thrown by the retriever and
the FaissClient. loadFailed wraps any failure inside FaissClient.load, keeping
the bundle path and the inner error text. -/
inductive RetrieverError where
  | loadFailed (bundlePath : String) (err : String)
  | clientNotLoaded
  | badEmbedding
  | searchNotLoaded
deriving DecidableEq

/-- FaissClient state from the file backed client of
src/services/code-index/domain-vector-retriever.ts: parallel vectors and
texts, the dimensionality and the loaded flag, with the constructor arguments
domain and bundlePath. -/
structure FaissClient where
  domain : String
  bundlePath : String
  vectors : List (List ℚ) := []
  texts : List String := []
  dim : Nat := 768
  loaded : Bool := false
deriving DecidableEq

/-- FaissClient.load: on a successful read of a nonempty item list, store the
embeddings and texts, set dim to the length of the first vector and mark the
client loaded; any failure is caught and rethrown as loadFailed, leaving the
fields untouched and the loaded flag false. The shape checks on untyped JSON
(array of records with an embedding array and a text string) cannot fail in
this typed model; the reachable validation failure is the empty list. -/
def FaissClient.load (c : FaissClient) (fileContent : Except String (List BundleItem)) :
    FaissClient × Except RetrieverError Unit :=
  match fileContent with
  | .error err => (c, .error (.loadFailed c.bundlePath err))
  | .ok items =>
    if items.length = 0 then
      (c, .error (.loadFailed c.bundlePath "Invalid vectors format"))
    else
      let vectors := items.map (fun item => item.embedding)
      let texts := items.map (fun item => item.text)
      ({ c with
          vectors := vectors
          texts := texts
          dim := (vectors.headD []).length
          loaded := true }, .ok ())

/-- The summation loop of FaissClient.l2: the sum of squared component
differences, indexing both lists by the positions of the first argument. The
source applies Math.sqrt to this sum and scores with its negation; the square
root is strictly monotone on nonnegative values, so the ordering and the ties
of the scores are exactly those of the negated sums used here (rationals have
no square root). An out of range access of b is undefined arithmetic in
JavaScript; it is modelled with a zero default and no theorem exercises it. -/
def l2sq (a b : List ℚ) : ℚ :=
  (List.range a.length).foldl
    (fun sum i => sum + (a.getD i 0 - b.getD i 0) * (a.getD i 0 - b.getD i 0)) 0

/-- One element of the scores array built by FaissClient.search: the insertion
index and the score of the stored vector at that index. -/
structure ScoreEntry where
  idx : Nat
  score : ℚ
deriving DecidableEq

/-- FaissSearchResult from the source: a text chunk and its score. -/
structure FaissSearchResult where
  text : String
  score : ℚ
deriving DecidableEq

/-- The scores array of FaissClient.search: one entry per stored vector, in
insertion order, scored by negated distance to the query. -/
def FaissClient.scoreList (c : FaissClient) (queryEmbedding : List ℚ) : List ScoreEntry :=
  c.vectors.enum.map (fun p => ⟨p.1, -(l2sq queryEmbedding p.2)⟩)

/-- The ordering realised by the stable JavaScript sort
scores.sort((a, b) => b.score - a.score): score strictly descending, and on
equal scores the original insertion index ascending. -/
def scoreOrder (a b : ScoreEntry) : Prop :=
  b.score < a.score ∨ (a.score = b.score ∧ a.idx ≤ b.idx)

instance : DecidableRel scoreOrder := fun a b => by
  unfold scoreOrder; infer_instance

/-- FaissClient.search: throw when not loaded, otherwise score every stored
vector, sort stably by descending score, keep the first topN and read back the
texts. -/
def FaissClient.search (c : FaissClient) (queryEmbedding : List ℚ) (topN : Nat) :
    Except RetrieverError (List FaissSearchResult) :=
  if c.loaded = false then .error .searchNotLoaded
  else
    let sorted := (c.scoreList queryEmbedding).insertionSort scoreOrder
    .ok ((sorted.take topN).map (fun e => ⟨c.texts.getD e.idx "", e.score⟩))

/-- getFaissBundlePathForDomain of the canonical retriever pipeline: a single
static bundle path regardless of the domain. -/
def getFaissBundlePathForDomain (domain : String) : String :=
  "/home/shtlp0015/faiss-test/vectors.json"

/-- DomainVectorRetriever state: the single cache slot and the loaded domain
marker. -/
structure DomainVectorRetriever where
  faissClient : Option FaissClient := none
  loadedDomain : Option String := none
deriving DecidableEq

/-- DomainVectorRetriever.ensureDomainLoaded: a no-op when the requested
domain equals loadedDomain and a client is cached; otherwise a fresh client is
assigned to the cache slot, then load runs, and only on success is
loadedDomain updated. The fileContent argument stands for the file read of the
bundle performed inside load. -/
def DomainVectorRetriever.ensureDomainLoaded (r : DomainVectorRetriever) (domain : String)
    (fileContent : Except String (List BundleItem)) :
    DomainVectorRetriever × Except RetrieverError Unit :=
  if r.loadedDomain = some domain ∧ r.faissClient.isSome = true then (r, .ok ())
  else
    -- the fresh client built from the bundle path is assigned to
    -- this.faissClient before load runs, and loadedDomain is updated only
    -- after load succeeds
    match FaissClient.load
        { domain := domain, bundlePath := getFaissBundlePathForDomain domain } fileContent with
    | (client2, .error e) => ({ r with faissClient := some client2 }, .error e)
    | (client2, .ok _) => ({ faissClient := some client2, loadedDomain := some domain }, .ok ())

/-- DomainVectorRetriever.getTopChunksForQuery: ensure the domain is loaded,
require a cached client, take the first embedding returned by the embedder for
the query (the embeddings argument stands for the embedder response), require
its length to be exactly 768, then search. -/
def DomainVectorRetriever.getTopChunksForQuery (r : DomainVectorRetriever)
    (domain : String) (fileContent : Except String (List BundleItem))
    (embeddings : List (List ℚ)) (topN : Nat) :
    DomainVectorRetriever × Except RetrieverError (List FaissSearchResult) :=
  match r.ensureDomainLoaded domain fileContent with
  | (r2, .error e) => (r2, .error e)
  | (r2, .ok _) =>
    match r2.faissClient with
    | none => (r2, .error .clientNotLoaded)
    | some client =>
      match embeddings.head? with
      | none => (r2, .error .badEmbedding)
      | some embedding =>
        if embedding.length = 768 then (r2, client.search embedding topN)
        else (r2, .error .badEmbedding)

/-- EmbedderProvider of the configuration manager. -/
inductive EmbedderProvider where
  | openai
  | ollama
  | openaiCompatible
deriving DecidableEq

/-- The raw persisted record under the codebaseIndexConfig key, with every
field possibly absent. The stored record also carries a codebaseIndexSearchMinScore
field that the manager never destructures; it is omitted. -/
structure CodebaseIndexConfig where
  codebaseIndexEnabled : Option Bool := none
  codebaseIndexVectorStoreType : Option String := none
  codebaseIndexVectorStoreUrl : Option String := none
  codebaseIndexVectorStoreApiKey : Option String := none
  codebaseIndexEmbedderProvider : Option String := none
  codebaseIndexEmbedderBaseUrl : Option String := none
  codebaseIndexEmbedderModelId : Option String := none
deriving DecidableEq

/-- The persisted values the manager reads through ContextProxy: the
codebaseIndexConfig global state, two secrets, and the further global state
keys used as fallbacks and for the openai compatible options. -/
structure ContextStorage where
  codebaseIndexConfig : Option CodebaseIndexConfig := none
  codeIndexOpenAiKey : Option String := none
  codebaseIndexVectorStoreApiKeySecret : Option String := none
  codebaseIndexVectorStoreUrlState : Option String := none
  codebaseIndexVectorStoreTypeState : Option String := none
  codebaseIndexOpenAiCompatibleBaseUrl : Option String := none
  codebaseIndexOpenAiCompatibleApiKeySecret : Option String := none
  codebaseIndexOpenAiCompatibleModelDimension : Option Nat := none
deriving DecidableEq

/-- The openai compatible options record held by the manager. -/
structure OpenAiCompatibleOptions where
  baseUrl : String
  apiKey : String
  modelDimension : Option Nat := none
deriving DecidableEq

/-- Modelled from the spec: SEARCH_MIN_SCORE is a fixed constant imported from
src/services/code-index/constants.ts, which is not in the corpus; the default
raw configuration object of the manager uses 0.4. Its value plays no role in
any claim. -/
def SEARCH_MIN_SCORE : ℚ := 0.4

/-- The instance state of CodeIndexConfigManager. The nested option records of
the source are flattened to the single field each that the manager reads:
openAiNativeApiKey for openAiOptions and ollamaBaseUrl for ollamaOptions. -/
structure CodeIndexConfigManager where
  isEnabled : Bool := false
  embedderProvider : EmbedderProvider := .openai
  modelId : Option String := none
  openAiNativeApiKey : Option String := none
  ollamaBaseUrl : Option String := none
  openAiCompatibleOptions : Option OpenAiCompatibleOptions := none
  vectorStoreType : Option String := none
  vectorStoreUrl : Option String := none
  vectorStoreApiKey : Option String := none
  searchMinScore : Option ℚ := none
deriving DecidableEq

/-- The default object used when no codebaseIndexConfig record is stored. -/
def defaultCodebaseIndexConfig : CodebaseIndexConfig :=
  { codebaseIndexEnabled := some false
    codebaseIndexVectorStoreType := some "qdrant"
    codebaseIndexVectorStoreUrl := some "http://localhost:6333"
    codebaseIndexVectorStoreApiKey := some ""
    codebaseIndexEmbedderProvider := some "openai"
    codebaseIndexEmbedderBaseUrl := some ""
    codebaseIndexEmbedderModelId := some "" }

/-- The private loadAndSetConfiguration of CodeIndexConfigManager: read the
raw record and the secrets, normalize with the documented defaults and update
every instance field. -/
def loadAndSetConfiguration (storage : ContextStorage) : CodeIndexConfigManager :=
  let cfg := storage.codebaseIndexConfig.getD defaultCodebaseIndexConfig
  let openAiKey := storage.codeIndexOpenAiKey.getD ""
  let vectorStoreApiKey :=
    (cfg.codebaseIndexVectorStoreApiKey.orElse
      (fun _ => storage.codebaseIndexVectorStoreApiKeySecret)).getD ""
  let vectorStoreUrl :=
    (cfg.codebaseIndexVectorStoreUrl.orElse
      (fun _ => storage.codebaseIndexVectorStoreUrlState)).getD ""
  let vectorStoreType :=
    (cfg.codebaseIndexVectorStoreType.orElse
      (fun _ => storage.codebaseIndexVectorStoreTypeState)).getD "qdrant"
  let openAiCompatibleBaseUrl := storage.codebaseIndexOpenAiCompatibleBaseUrl.getD ""
  let openAiCompatibleApiKey := storage.codebaseIndexOpenAiCompatibleApiKeySecret.getD ""
  { isEnabled := cfg.codebaseIndexEnabled.getD false
    vectorStoreType := some vectorStoreType
    vectorStoreUrl := some vectorStoreUrl
    vectorStoreApiKey := some vectorStoreApiKey
    openAiNativeApiKey := some openAiKey
    searchMinScore := some SEARCH_MIN_SCORE
    embedderProvider :=
      if cfg.codebaseIndexEmbedderProvider = some "ollama" then .ollama
      else if cfg.codebaseIndexEmbedderProvider = some "openai-compatible" then .openaiCompatible
      else .openai
    modelId :=
      match cfg.codebaseIndexEmbedderModelId with
      | some s => if s = "" then none else some s
      | none => none
    ollamaBaseUrl := cfg.codebaseIndexEmbedderBaseUrl
    openAiCompatibleOptions :=
      if strTruthy (some openAiCompatibleBaseUrl) = true ∧
          strTruthy (some openAiCompatibleApiKey) = true then
        some { baseUrl := openAiCompatibleBaseUrl
               apiKey := openAiCompatibleApiKey
               modelDimension := storage.codebaseIndexOpenAiCompatibleModelDimension }
      else none }

/-- CodeIndexConfigManager.isConfigured: per provider truthiness of the
required credential and endpoint fields plus a truthy vector store type and
url. -/
def CodeIndexConfigManager.isConfigured (s : CodeIndexConfigManager) : Bool :=
  match s.embedderProvider with
  | .openai =>
    strTruthy s.openAiNativeApiKey && strTruthy s.vectorStoreType && strTruthy s.vectorStoreUrl
  | .ollama =>
    strTruthy s.ollamaBaseUrl && strTruthy s.vectorStoreType && strTruthy s.vectorStoreUrl
  | .openaiCompatible =>
    (match s.openAiCompatibleOptions with
     | some o => strTruthy (some o.baseUrl) && strTruthy (some o.apiKey)
     | none => false) && strTruthy s.vectorStoreType && strTruthy s.vectorStoreUrl

/-- PreviousConfigSnapshot as captured at the top of loadConfiguration, with
the same fallback defaults as the source. -/
structure PreviousConfigSnapshot where
  enabled : Bool
  configured : Bool
  embedderProvider : EmbedderProvider
  modelId : Option String
  openAiKey : String
  ollamaBaseUrl : String
  openAiCompatibleBaseUrl : String
  openAiCompatibleApiKey : String
  openAiCompatibleModelDimension : Option Nat
  vectorStoreType : String
  vectorStoreUrl : String
  vectorStoreApiKey : String
deriving DecidableEq

/-- The snapshot construction at the top of loadConfiguration. -/
def CodeIndexConfigManager.snapshot (s : CodeIndexConfigManager) : PreviousConfigSnapshot :=
  { enabled := s.isEnabled
    configured := s.isConfigured
    embedderProvider := s.embedderProvider
    modelId := s.modelId
    openAiKey := s.openAiNativeApiKey.getD ""
    ollamaBaseUrl := s.ollamaBaseUrl.getD ""
    openAiCompatibleBaseUrl := (s.openAiCompatibleOptions.map (fun o => o.baseUrl)).getD ""
    openAiCompatibleApiKey := (s.openAiCompatibleOptions.map (fun o => o.apiKey)).getD ""
    openAiCompatibleModelDimension := s.openAiCompatibleOptions.bind (fun o => o.modelDimension)
    vectorStoreType := s.vectorStoreType.getD "qdrant"
    vectorStoreUrl := s.vectorStoreUrl.getD "http://localhost:6333"
    vectorStoreApiKey := s.vectorStoreApiKey.getD "" }

/-- Modelled from the spec: getDefaultModelId and getModelDimension come from
src/shared/embeddingModels.ts, which is not in the corpus. The spec describes
them as the per provider default model id and the known vector dimension of a
provider and model pair, unknown dimensions being absent. The manager is
parameterized over this record. -/
structure EmbeddingModelTable where
  getDefaultModelId : EmbedderProvider → String
  getModelDimension : EmbedderProvider → String → Option Nat

/-- The private hasVectorDimensionChanged of CodeIndexConfigManager: resolve
both model ids through the provider defaults, no change when provider and
resolved id are unchanged, restart defensively when either dimension is
unknown, otherwise compare the dimensions. -/
def CodeIndexConfigManager.hasVectorDimensionChanged (s : CodeIndexConfigManager)
    (tbl : EmbeddingModelTable) (prevProvider : EmbedderProvider)
    (prevModelId : Option String) : Bool :=
  let currentModelId := s.modelId.getD (tbl.getDefaultModelId s.embedderProvider)
  let resolvedPrevModelId := prevModelId.getD (tbl.getDefaultModelId prevProvider)
  if prevProvider = s.embedderProvider ∧ resolvedPrevModelId = currentModelId then false
  else
    match tbl.getModelDimension prevProvider resolvedPrevModelId,
        tbl.getModelDimension s.embedderProvider currentModelId with
    | some prevDimension, some currentDimension =>
      if prevDimension = currentDimension then false else true
    | _, _ => true

/-- CodeIndexConfigManager.doesConfigChangeRequireRestart, with the four rules
in source order: transition to enabled and configured, still disabled, still
unconfigured, then the drift checks gated on being or having been enabled. -/
def CodeIndexConfigManager.doesConfigChangeRequireRestart (s : CodeIndexConfigManager)
    (tbl : EmbeddingModelTable) (prev : PreviousConfigSnapshot) : Bool :=
  let nowConfigured := s.isConfigured
  if (prev.enabled = false ∨ prev.configured = false) ∧ s.isEnabled = true ∧
      nowConfigured = true then true
  else if prev.enabled = false ∧ s.isEnabled = false then false
  else if prev.configured = false ∧ nowConfigured = false then false
  else if s.isEnabled = true ∨ prev.enabled = true then
    if ¬ prev.embedderProvider = s.embedderProvider then true
    else if s.hasVectorDimensionChanged tbl prev.embedderProvider prev.modelId = true then true
    else if s.embedderProvider = .openai ∧
        ¬ prev.openAiKey = s.openAiNativeApiKey.getD "" then true
    else if s.embedderProvider = .ollama ∧
        ¬ prev.ollamaBaseUrl = s.ollamaBaseUrl.getD "" then true
    else if s.embedderProvider = .openaiCompatible ∧
        ¬ (prev.openAiCompatibleBaseUrl = (s.openAiCompatibleOptions.map (fun o => o.baseUrl)).getD "" ∧
           prev.openAiCompatibleApiKey = (s.openAiCompatibleOptions.map (fun o => o.apiKey)).getD "" ∧
           prev.openAiCompatibleModelDimension = s.openAiCompatibleOptions.bind (fun o => o.modelDimension)) then
      true
    else if ¬ (prev.vectorStoreUrl = s.vectorStoreUrl.getD "http://localhost:6333" ∧
               prev.vectorStoreApiKey = s.vectorStoreApiKey.getD "" ∧
               prev.vectorStoreType = s.vectorStoreType.getD "qdrant") then true
    else false
  else false

/-- The result record of loadConfiguration. The currentConfig member of the
source is a field by field projection of the new manager state, returned here
as the state itself. -/
structure LoadConfigurationResult where
  configSnapshot : PreviousConfigSnapshot
  requiresRestart : Bool
deriving DecidableEq

/-- CodeIndexConfigManager.loadConfiguration: capture the snapshot of the held
state, reload and normalize from storage, then diff the fresh state against
the snapshot. -/
def CodeIndexConfigManager.loadConfiguration (s : CodeIndexConfigManager)
    (tbl : EmbeddingModelTable) (storage : ContextStorage) :
    CodeIndexConfigManager × LoadConfigurationResult :=
  let previousConfigSnapshot := s.snapshot
  let s2 := loadAndSetConfiguration storage
  (s2, { configSnapshot := previousConfigSnapshot
         requiresRestart := s2.doesConfigChangeRequireRestart tbl previousConfigSnapshot })

/-- The override applied by the merge to one built-in slot: the first custom
domain with the same slug, or the built-in itself. Used to state the merge
characterization. -/
def overrideBySlug (cs : List DomainConfig) (d : DomainConfig) : DomainConfig :=
  (cs.find? (fun c => c.slug = d.slug)).getD d

/-- The custom domains whose slug matches no built-in, in input order. Used to
state the merge characterization. -/
def freshCustoms (cs : List DomainConfig) : List DomainConfig :=
  cs.filter (fun c => domains.all (fun d => ¬ d.slug = c.slug))

/-- Modelled from the spec: a representative tool catalog instantiation for
the concrete evaluation theorems, shaped after the tool set the spec
describes: five groups, a few always available tools, and experiment
identifiers that include two edit group tools. The universal theorems are
quantified over the catalog and do not depend on it. -/
def sampleCatalog : ToolCatalog :=
  { toolGroups := fun g =>
      if g = "read" then ["read_file", "search_files", "list_files"]
      else if g = "edit" then ["apply_diff", "write_to_file", "insert_content", "search_and_replace"]
      else if g = "browser" then ["browser_action"]
      else if g = "command" then ["execute_command"]
      else if g = "mcp" then ["use_mcp_tool", "access_mcp_resource"]
      else []
    alwaysAvailableTools := ["ask_followup_question", "attempt_completion", "switch_domain", "new_task"]
    experimentIds := ["insert_content", "search_and_replace", "powerSteering"] }

/-- A regex engine instantiation: the markdown pattern compiles to a test
accepting exactly one markdown path, every other pattern fails to compile. -/
def sampleRegexEngine : RegexEngine := fun pattern =>
  if pattern = "\\.md$" then some (fun path => path = "docs/manual.md") else none

/-- A custom domain overriding the healthcare slug with a markdown restricted
edit group. -/
def customHealthcareDomain : DomainConfig :=
  { slug := "healthcare"
    name := "Custom Healthcare"
    roleDefinition := "Restricted healthcare editor."
    groups := [.withOptions "edit"
      { fileRegex := some "\\.md$", description := some "Markdown files only" }] }

/-- A custom domain with a slug absent from the built-ins. -/
def financeDomain : DomainConfig :=
  { slug := "finance"
    name := "Finance"
    roleDefinition := "You are a finance expert."
    groups := [.bare "read", .bare "edit"] }

/-- A loaded client whose bundle vectors have dimensionality 770. -/
def wideClient : FaissClient :=
  { domain := "healthcare"
    bundlePath := getFaissBundlePathForDomain "healthcare"
    vectors := [List.replicate 770 0]
    texts := ["wide chunk"]
    dim := 770
    loaded := true }

/-- A retriever currently caching the wide client for the healthcare domain. -/
def wideRetriever : DomainVectorRetriever :=
  { faissClient := some wideClient, loadedDomain := some "healthcare" }

/-- A small loaded client with two entries of dimensionality one. -/
def smallClient : FaissClient :=
  { domain := "healthcare"
    bundlePath := getFaissBundlePathForDomain "healthcare"
    vectors := [[5], [1]]
    texts := ["far chunk", "near chunk"]
    dim := 1
    loaded := true }

/-- A retriever holding a loaded client for the manufacturing domain. -/
def manufacturingRetriever : DomainVectorRetriever :=
  { faissClient := some
      { domain := "manufacturing"
        bundlePath := getFaissBundlePathForDomain "manufacturing"
        vectors := [[1]]
        texts := ["m"]
        dim := 1
        loaded := true }
    loadedDomain := some "manufacturing" }

/-- A well formed one item bundle of dimensionality three. -/
def smallBundle : List BundleItem := [{ embedding := [0, 0, 0], text := "t" }]

/-- C10: doesFileMatchRegex is total by construction of the embedding (the
try catch around the RegExp constructor is the option on the engine result),
and when the pattern does not compile the result is false, so the gate treats
an uncompilable fileRegex as matching no path. -/
theorem doesFileMatchRegex_uncompilable_false (engine : RegexEngine)
    (filePath pattern : String) (h : engine pattern = none) :
    doesFileMatchRegex engine filePath pattern = false := by
  unfold doesFileMatchRegex
  rw [h]

/-- Witness for C10 at the pattern of a lone opening bracket, which the sample
engine refuses to compile. -/
theorem doesFileMatchRegex_uncompilable_false_witness :
    sampleRegexEngine "[" = none ∧
    doesFileMatchRegex sampleRegexEngine "notes.md" "[" = false :=
  ⟨rfl, doesFileMatchRegex_uncompilable_false sampleRegexEngine "notes.md" "[" rfl⟩

/-- C1 (evaluation at the failing input): a custom domain carries an edit
entry with a fileRegex, the invocation writes a path that does not match, and
the call still returns true with no FileRestrictionError: custom domains are
never resolved by getDomainBySlug, the built-in healthcare groups are all
bare, and the restriction branch is unreachable. -/
theorem fileRestriction_never_raised :
    doesFileMatchRegex sampleRegexEngine "src/index.ts" "\\.md$" = false ∧
    isToolAllowedForDomain sampleCatalog sampleRegexEngine "apply_diff" "healthcare"
      [customHealthcareDomain] none
      (some { path := some "src/index.ts", diff := some "x" }) none = .ok true :=
  ⟨by decide, rfl⟩

/-- C2 (evaluation at the failing input): a domain present only in
customDomains is not resolved: getDomainBySlug ignores its customDomains
argument, so the gate denies the tool instead of consulting the custom
domain groups. -/
theorem customOnly_domain_is_denied :
    getDomainBySlug "finance" (some [financeDomain]) = none ∧
    isToolAllowedForDomain sampleCatalog sampleRegexEngine "read_file" "finance"
      [financeDomain] none none none = .ok false :=
  ⟨rfl, rfl⟩

/-- C4 (evaluation at the failing input): for a slug present only in
customDomains, getFullDomainDetails falls back to the first built-in domain
instead of choosing the supplied custom domain as base. -/
theorem fullDetails_base_ignores_customs :
    (getFullDomainDetails (fun base _g _c _s _l => base) "finance" (some [financeDomain])
      none none).slug = "healthcare" ∧
    (getFullDomainDetails (fun base _g _c _s _l => base) "finance" (some [financeDomain])
      none none).name = healthcareDomain.name :=
  ⟨rfl, rfl⟩

/-- C9 counterexample: search_and_replace is an experiment identifier and is
not always available, no experiments record is supplied, and the call returns
true through the bare edit group of the built-in healthcare domain instead of
the denial the claim requires for an absent flag. -/
theorem experimentTool_allowed_without_flags :
    "search_and_replace" ∈ sampleCatalog.experimentIds ∧
    ¬ "search_and_replace" ∈ sampleCatalog.alwaysAvailableTools ∧
    isToolAllowedForDomain sampleCatalog sampleRegexEngine "search_and_replace" "healthcare"
      [] none none none = .ok true :=
  ⟨by decide, by decide, rfl⟩

/-- C9 amended: when an experiments record is supplied, an experiment tool
outside the always available set is denied whenever its flag is false or
absent; when no record is supplied the experiments gate is skipped and the
outcome is decided by the remaining rules. -/
theorem experimentFlag_not_true_denies (cat : ToolCatalog) (engine : RegexEngine)
    (tool domainSlug : String) (customDomains : List DomainConfig)
    (toolRequirements : Option (List (String × Bool))) (toolParams : Option ToolParams)
    (exps : List (String × Bool))
    (hnotAlways : ¬ tool ∈ cat.alwaysAvailableTools)
    (hexp : tool ∈ cat.experimentIds)
    (hflag : ¬ exps.lookup tool = some true) :
    isToolAllowedForDomain cat engine tool domainSlug customDomains toolRequirements
      toolParams (some exps) = .ok false := by
  have hd : experimentsDeny cat tool (some exps) = true := by
    show (if tool ∈ cat.experimentIds then
      if exps.lookup tool = some true then false else true else false) = true
    rw [if_pos hexp, if_neg hflag]
  unfold isToolAllowedForDomain
  rw [if_neg hnotAlways, if_pos hd]

/-- Witness for C9 amended with an empty experiments record. -/
theorem experimentFlag_not_true_denies_witness :
    ¬ "search_and_replace" ∈ sampleCatalog.alwaysAvailableTools ∧
    "search_and_replace" ∈ sampleCatalog.experimentIds ∧
    ¬ (([] : List (String × Bool)).lookup "search_and_replace" = some true) ∧
    isToolAllowedForDomain sampleCatalog sampleRegexEngine "search_and_replace" "healthcare"
      [] none none (some []) = .ok false :=
  ⟨by decide, by decide, by decide,
    experimentFlag_not_true_denies sampleCatalog sampleRegexEngine "search_and_replace"
      "healthcare" [] none none [] (by decide) (by decide) (by decide)⟩

set_option maxRecDepth 8192 in
/-- C6 counterexample: the loaded index has dimensionality 770, the embedder
returns a vector of length 768, the two differ, yet the call does not fail:
the gate compares the embedding length against the constant 768, not against
the index dimensionality, and search runs. -/
theorem dimensionCheck_ignores_index_dim :
    wideClient.dim = 770 ∧
    (wideRetriever.getTopChunksForQuery "healthcare" (.error "unread")
      [List.replicate 768 0] 5).2.isOk = true :=
  ⟨rfl, rfl⟩

/-- After a successful ensureDomainLoaded the cache slot holds a client. -/
theorem ensure_ok_isSome (r : DomainVectorRetriever) (domain : String)
    (fc : Except String (List BundleItem))
    (h : (r.ensureDomainLoaded domain fc).2 = .ok ()) :
    ((r.ensureDomainLoaded domain fc).1).faissClient.isSome = true := by
  unfold DomainVectorRetriever.ensureDomainLoaded at h ⊢
  by_cases hc : r.loadedDomain = some domain ∧ r.faissClient.isSome = true
  · rw [if_pos hc]
    exact hc.2
  · rw [if_neg hc] at h ⊢
    cases hload : FaissClient.load
        { domain := domain, bundlePath := getFaissBundlePathForDomain domain } fc with
    | mk client2 res =>
      rw [hload] at h
      cases res with
      | error e =>
        exact Except.noConfusion
          (show (Except.error e : Except RetrieverError Unit) = Except.ok () from h)
      | ok u => rfl

/-- C6 amended: the dimension gate fails the call, before search, exactly
against the constant 768: when the first embedding is present but its length
differs from 768 the call errors with the bad embedding failure; the loaded
index dimensionality is never consulted. -/
theorem getTopChunks_requires_length_768 (r : DomainVectorRetriever) (domain : String)
    (fc : Except String (List BundleItem)) (embedding : List ℚ) (rest : List (List ℚ))
    (topN : Nat)
    (hok : (r.ensureDomainLoaded domain fc).2 = .ok ())
    (hlen : ¬ embedding.length = 768) :
    (r.getTopChunksForQuery domain fc (embedding :: rest) topN).2 = .error .badEmbedding := by
  have hsome := ensure_ok_isSome r domain fc hok
  unfold DomainVectorRetriever.getTopChunksForQuery
  cases hE : r.ensureDomainLoaded domain fc with
  | mk r2 res =>
    rw [hE] at hok hsome
    cases res with
    | error e => simp at hok
    | ok u =>
      cases hFC : r2.faissClient with
      | none => simp [hFC] at hsome
      | some client =>
        simp only [hFC, List.head?]
        rw [if_neg hlen]

/-- Witness for C6 amended: a fresh retriever, a well formed bundle, and an
embedding of length one. -/
theorem getTopChunks_requires_length_768_witness :
    ((DomainVectorRetriever.mk none none).ensureDomainLoaded "healthcare"
      (.ok smallBundle)).2 = .ok () ∧
    ¬ ([(0 : ℚ)].length = 768) ∧
    ((DomainVectorRetriever.mk none none).getTopChunksForQuery "healthcare"
      (.ok smallBundle) [[(0 : ℚ)]] 5).2 = .error .badEmbedding :=
  ⟨rfl, by decide,
    getTopChunks_requires_length_768 (DomainVectorRetriever.mk none none) "healthcare"
      (.ok smallBundle) [(0 : ℚ)] [] 5 rfl (by decide)⟩

/-- C8 counterexample: after a failed bundle load on a fresh retriever the
error propagates, but the cache slot holds the fresh client that never loaded
rather than being left empty as the claim requires. -/
theorem loadFailure_leaves_client_cached :
    ((DomainVectorRetriever.mk none none).ensureDomainLoaded "healthcare"
      (.error "ENOENT")).2 =
      .error (.loadFailed (getFaissBundlePathForDomain "healthcare") "ENOENT") ∧
    ¬ (((DomainVectorRetriever.mk none none).ensureDomainLoaded "healthcare"
      (.error "ENOENT")).1.faissClient = none) :=
  ⟨rfl, by decide⟩

/-- C8 amended: when the load fails on a call that is not a cache hit, the
error propagates, the cache slot is replaced by the fresh client that never
loaded, and loadedDomain keeps its previous value; hence a later call for the
failed domain misses the cache and retries the load, while a later call for
the previously loaded domain is a cache hit that reuses the never loaded
client. -/
theorem ensureDomainLoaded_failure_state (r : DomainVectorRetriever) (domain err : String)
    (hmiss : ¬ (r.loadedDomain = some domain ∧ r.faissClient.isSome = true)) :
    (r.ensureDomainLoaded domain (.error err)).1 =
      { faissClient :=
          some { domain := domain, bundlePath := getFaissBundlePathForDomain domain }
        loadedDomain := r.loadedDomain } ∧
    (r.ensureDomainLoaded domain (.error err)).2 =
      .error (.loadFailed (getFaissBundlePathForDomain domain) err) ∧
    ∀ d2 fc2, r.loadedDomain = some d2 →
      ((r.ensureDomainLoaded domain (.error err)).1).ensureDomainLoaded d2 fc2 =
        ((r.ensureDomainLoaded domain (.error err)).1, .ok ()) := by
  have h1 : r.ensureDomainLoaded domain (.error err) =
      ({ faissClient :=
           some { domain := domain, bundlePath := getFaissBundlePathForDomain domain }
         loadedDomain := r.loadedDomain },
       .error (.loadFailed (getFaissBundlePathForDomain domain) err)) := by
    unfold DomainVectorRetriever.ensureDomainLoaded
    rw [if_neg hmiss]
    rfl
  refine ⟨by rw [h1], by rw [h1], ?_⟩
  intro d2 fc2 hd2
  rw [h1]
  unfold DomainVectorRetriever.ensureDomainLoaded
  rw [if_pos]
  exact ⟨by simp [hd2], by simp⟩

/-- Witness for C8 amended: a retriever loaded for manufacturing, a failing
load for healthcare, then a cache hit for manufacturing reusing the never
loaded client. -/
theorem ensureDomainLoaded_failure_state_witness :
    (¬ (manufacturingRetriever.loadedDomain = some "healthcare" ∧
        manufacturingRetriever.faissClient.isSome = true)) ∧
    (manufacturingRetriever.ensureDomainLoaded "healthcare" (.error "ENOENT")).1 =
      { faissClient :=
          some { domain := "healthcare"
                 bundlePath := getFaissBundlePathForDomain "healthcare" }
        loadedDomain := manufacturingRetriever.loadedDomain } ∧
    (manufacturingRetriever.ensureDomainLoaded "healthcare" (.error "ENOENT")).2 =
      .error (.loadFailed (getFaissBundlePathForDomain "healthcare") "ENOENT") ∧
    ((manufacturingRetriever.ensureDomainLoaded "healthcare" (.error "ENOENT")).1).ensureDomainLoaded
        "manufacturing" (.ok smallBundle) =
      ((manufacturingRetriever.ensureDomainLoaded "healthcare" (.error "ENOENT")).1, .ok ()) :=
  ⟨by decide,
    (ensureDomainLoaded_failure_state manufacturingRetriever "healthcare" "ENOENT" (by decide)).1,
    (ensureDomainLoaded_failure_state manufacturingRetriever "healthcare" "ENOENT" (by decide)).2.1,
    (ensureDomainLoaded_failure_state manufacturingRetriever "healthcare" "ENOENT"
      (by decide)).2.2 "manufacturing" (.ok smallBundle) rfl⟩

/-- Diffing a state against its own snapshot never requires a restart: every
rule of doesConfigChangeRequireRestart compares a snapshot field against the
state field it was captured from. -/
theorem restart_self_false (tbl : EmbeddingModelTable) (s : CodeIndexConfigManager) :
    s.doesConfigChangeRequireRestart tbl s.snapshot = false := by
  unfold CodeIndexConfigManager.doesConfigChangeRequireRestart CodeIndexConfigManager.snapshot
    CodeIndexConfigManager.hasVectorDimensionChanged
  cases hE : s.isEnabled <;> cases hC : s.isConfigured <;> simp [hE, hC]

/-- C3: loadConfiguration invoked twice over unchanged persisted storage,
starting from the state the constructor loaded from that same storage, reports
requiresRestart = false both times. -/
theorem loadConfiguration_twice_noRestart (tbl : EmbeddingModelTable)
    (storage : ContextStorage) :
    ((loadAndSetConfiguration storage).loadConfiguration tbl storage).2.requiresRestart = false ∧
    (((loadAndSetConfiguration storage).loadConfiguration tbl storage).1.loadConfiguration
      tbl storage).2.requiresRestart = false := by
  constructor <;>
    simp [CodeIndexConfigManager.loadConfiguration, restart_self_false]

instance : IsTotal ScoreEntry scoreOrder :=
  ⟨fun a b => by
    unfold scoreOrder
    rcases lt_trichotomy a.score b.score with h | h | h
    · right; left; exact h
    · rcases Nat.le_total a.idx b.idx with hi | hi
      · left; right; exact ⟨h, hi⟩
      · right; right; exact ⟨h.symm, hi⟩
    · left; left; exact h⟩

instance : IsTrans ScoreEntry scoreOrder :=
  ⟨fun a b c hab hbc => by
    unfold scoreOrder at hab hbc ⊢
    rcases hab with h1 | ⟨h1, h1i⟩ <;> rcases hbc with h2 | ⟨h2, h2i⟩
    · left; exact lt_trans h2 h1
    · left; rw [← h2]; exact h1
    · left; rw [h1]; exact h2
    · right; exact ⟨h1.trans h2, le_trans h1i h2i⟩⟩

/-- Every entry of the scores array records a valid insertion index and the
negated distance of the stored vector at that index. -/
theorem scoreList_mem (c : FaissClient) (q : List ℚ) (e : ScoreEntry)
    (he : e ∈ c.scoreList q) :
    e.idx < c.vectors.length ∧ e.score = -(l2sq q (c.vectors.getD e.idx [])) := by
  unfold FaissClient.scoreList at he
  obtain ⟨p, hp, hep⟩ := List.mem_map.mp he
  have hget : c.vectors[p.1]? = some p.2 := List.mem_enum_iff_getElem?.mp hp
  subst hep
  refine ⟨(List.getElem?_eq_some.mp hget).1, ?_⟩
  simp [List.getD_eq_getElem?_getD, hget]

/-- C5: on a loaded index, search returns ok with exactly min topN n results,
the ranking is a permutation of the insertion ordered scores array sorted by
scoreOrder (score descending, ties by ascending insertion index, realising
the stable JavaScript sort), the output is the topN front of that ranking
joined with the stored texts, and every score is the negated distance of the
stored vector at its index. Scores are represented by negated squared
distances, order equivalent to the negated Euclidean distances of the source
because the square root is strictly monotone. -/
theorem search_topN_ranked (c : FaissClient) (q : List ℚ) (topN : Nat)
    (h : c.loaded = true) :
    ∃ ranked : List ScoreEntry,
      ranked.Perm (c.scoreList q) ∧
      List.Pairwise scoreOrder ranked ∧
      c.search q topN =
        .ok ((ranked.take topN).map (fun e => ⟨c.texts.getD e.idx "", e.score⟩)) ∧
      (ranked.take topN).length = min topN c.vectors.length ∧
      ∀ e ∈ ranked, e.idx < c.vectors.length ∧
        e.score = -(l2sq q (c.vectors.getD e.idx [])) := by
  refine ⟨(c.scoreList q).insertionSort scoreOrder,
    List.perm_insertionSort scoreOrder (c.scoreList q),
    List.sorted_insertionSort scoreOrder (c.scoreList q), ?_, ?_, ?_⟩
  · unfold FaissClient.search
    rw [h]
    rfl
  · rw [List.length_take, (List.perm_insertionSort scoreOrder (c.scoreList q)).length_eq]
    unfold FaissClient.scoreList
    rw [List.length_map, List.enum_length]
  · intro e he
    exact scoreList_mem c q e ((List.perm_insertionSort scoreOrder (c.scoreList q)).subset he)

/-- Witness for C5: an index of two one dimensional entries queried with
topN three returns both entries, nearest first. -/
theorem search_topN_ranked_witness :
    smallClient.loaded = true ∧
    (∃ ranked : List ScoreEntry,
      ranked.Perm (smallClient.scoreList [0]) ∧
      List.Pairwise scoreOrder ranked ∧
      smallClient.search [0] 3 =
        .ok ((ranked.take 3).map (fun e => ⟨smallClient.texts.getD e.idx "", e.score⟩)) ∧
      (ranked.take 3).length = min 3 smallClient.vectors.length ∧
      ∀ e ∈ ranked, e.idx < smallClient.vectors.length ∧
        e.score = -(l2sq [0] (smallClient.vectors.getD e.idx []))) :=
  ⟨rfl, search_topN_ranked smallClient [0] 3 rfl⟩

/-- Shifting the start index of findIdx? shifts the found index. -/
theorem findIdx?_go {α : Type} (p : α → Bool) :
    ∀ (l : List α) (i : Nat), l.findIdx? p (i + 1) = (l.findIdx? p i).map (fun n => n + 1) := by
  intro l
  induction l with
  | nil => intro i; simp [List.findIdx?]
  | cons a as ih => intro i; by_cases h : p a <;> simp [List.findIdx?, h, ih]

/-- Structural unfolding of the merge body. -/
theorem mergeStep_cons (d : DomainConfig) (ds : List DomainConfig) (c : DomainConfig) :
    mergeStep (d :: ds) c = if d.slug = c.slug then c :: ds else d :: mergeStep ds c := by
  unfold mergeStep
  by_cases hd : d.slug = c.slug
  · simp [List.findIdx?, hd]
  · rw [if_neg hd]
    have h1 : (d :: ds).findIdx? (fun x => decide (x.slug = c.slug)) =
        (ds.findIdx? (fun x => decide (x.slug = c.slug))).map (fun n => n + 1) := by
      simp [List.findIdx?, hd, findIdx?_go]
    rw [h1]
    cases hf : ds.findIdx? (fun x => decide (x.slug = c.slug)) with
    | none => simp
    | some i => simp

/-- Merging a custom domain whose slug matches nothing appends it. -/
theorem mergeStep_noMatch (c : DomainConfig) :
    ∀ F : List DomainConfig, (∀ f ∈ F, ¬ f.slug = c.slug) → mergeStep F c = F ++ [c] := by
  intro F
  induction F with
  | nil => intro _; rfl
  | cons f fs ih =>
    intro h
    rw [mergeStep_cons, if_neg (h f (List.mem_cons_self f fs)),
      ih (fun x hx => h x (List.mem_cons_of_mem f hx))]
    rfl

/-- Replacing by slug is the identity on a list with no matching slug. -/
theorem map_replace_noop (c : DomainConfig) :
    ∀ l : List DomainConfig, (∀ x ∈ l, ¬ x.slug = c.slug) →
      l.map (fun x => if x.slug = c.slug then c else x) = l := by
  intro l
  induction l with
  | nil => intro _; rfl
  | cons a as ih =>
    intro h
    simp only [List.map_cons]
    rw [if_neg (h a (List.mem_cons_self a as)),
      ih (fun x hx => h x (List.mem_cons_of_mem a hx))]

/-- Replacement by an equal slugged custom domain preserves the slug. -/
theorem replace_slug (c d : DomainConfig) :
    (if d.slug = c.slug then c else d).slug = d.slug := by
  by_cases hd : d.slug = c.slug
  · rw [if_pos hd, hd]
  · rw [if_neg hd]

/-- Replacement preserves pairwise slug distinctness. -/
theorem pairwise_map_replace (c : DomainConfig) (D : List DomainConfig)
    (hD : D.Pairwise (fun a b => ¬ a.slug = b.slug)) :
    (D.map (fun d => if d.slug = c.slug then c else d)).Pairwise
      (fun a b => ¬ a.slug = b.slug) := by
  rw [List.pairwise_map]
  refine hD.imp ?_
  intro a b hab
  rw [replace_slug, replace_slug]
  exact hab

/-- Replacement preserves the slug based filter predicate. -/
theorem all_map_replace (c : DomainConfig) (D : List DomainConfig) (x : DomainConfig) :
    (D.map (fun d => if d.slug = c.slug then c else d)).all (fun d => ¬ d.slug = x.slug) =
      D.all (fun d => ¬ d.slug = x.slug) := by
  induction D with
  | nil => rfl
  | cons d ds ih =>
    simp only [List.map_cons, List.all_cons]
    rw [replace_slug, ih]

/-- Overriding through one replacement equals overriding by the extended
custom list, when the added custom slug is fresh among the remaining ones. -/
theorem override_comm (c : DomainConfig) (cs : List DomainConfig)
    (hnot : ∀ x ∈ cs, ¬ x.slug = c.slug) (d : DomainConfig) :
    overrideBySlug cs (if d.slug = c.slug then c else d) = overrideBySlug (c :: cs) d := by
  unfold overrideBySlug
  by_cases hd : d.slug = c.slug
  · rw [if_pos hd]
    have hfind : cs.find? (fun x => decide (x.slug = c.slug)) = none := by
      rw [List.find?_eq_none]
      intro x hx
      simp [hnot x hx]
    have hhead : (c :: cs).find? (fun x => decide (x.slug = d.slug)) = some c :=
      List.find?_cons_of_pos _ (by simp [hd])
    rw [hfind, hhead]
    rfl
  · rw [if_neg hd]
    have hhead : (c :: cs).find? (fun x => decide (x.slug = d.slug)) =
        cs.find? (fun x => decide (x.slug = d.slug)) :=
      List.find?_cons_of_neg _ (by simp; exact fun h => hd h.symm)
    rw [hhead]

/-- One merge step over a built-in front and an appended tail of fresh
customs: the front sees an in place replacement, the tail either stays or
receives the appended custom. -/
theorem mergeStep_shape (c : DomainConfig) :
    ∀ (D F : List DomainConfig),
      D.Pairwise (fun a b => ¬ a.slug = b.slug) →
      (∀ f ∈ F, ¬ f.slug = c.slug) →
      mergeStep (D ++ F) c =
        D.map (fun d => if d.slug = c.slug then c else d) ++
          (if D.any (fun d => d.slug = c.slug) then F else F ++ [c]) := by
  intro D
  induction D with
  | nil =>
    intro F _ hF
    simpa using mergeStep_noMatch c F hF
  | cons d ds ih =>
    intro F hD hF
    rw [List.cons_append, mergeStep_cons]
    by_cases hd : d.slug = c.slug
    · rw [if_pos hd]
      have hds : ∀ x ∈ ds, ¬ x.slug = c.slug := by
        intro x hx hxc
        exact (List.pairwise_cons.mp hD).1 x hx (by rw [hd, ← hxc])
      simp [hd, map_replace_noop c ds hds]
    · rw [if_neg hd, ih F (List.pairwise_cons.mp hD).2 hF]
      simp [hd]

/-- Folding the merge over custom domains with pairwise distinct slugs from a
built-in front and a disjoint appended tail: the front becomes the overridden
built-ins and the tail collects the fresh customs in input order. -/
theorem foldl_mergeStep_char :
    ∀ (cs D F : List DomainConfig),
      cs.Pairwise (fun a b => ¬ a.slug = b.slug) →
      (∀ x ∈ cs, ∀ f ∈ F, ¬ f.slug = x.slug) →
      D.Pairwise (fun a b => ¬ a.slug = b.slug) →
      cs.foldl mergeStep (D ++ F) =
        D.map (overrideBySlug cs) ++
          (F ++ cs.filter (fun x => D.all (fun d => ¬ d.slug = x.slug))) := by
  intro cs
  induction cs with
  | nil =>
    intro D F _ _ _
    have hid : D.map (overrideBySlug []) = D := by
      have h0 : ∀ d ∈ D, overrideBySlug [] d = id d := fun d _ => rfl
      rw [List.map_congr_left h0, List.map_id]
    simp [hid]
  | cons c cs ih =>
    intro D F hcs hF hD
    have hcs2 := (List.pairwise_cons.mp hcs).2
    have hc : ∀ x ∈ cs, ¬ c.slug = x.slug := (List.pairwise_cons.mp hcs).1
    have hcnot : ∀ x ∈ cs, ¬ x.slug = c.slug := fun x hx h => hc x hx h.symm
    rw [List.foldl_cons,
      mergeStep_shape c D F hD (fun f hf => hF c (List.mem_cons_self c cs) f hf)]
    have hDrep := pairwise_map_replace c D hD
    have hmap : (D.map (fun d => if d.slug = c.slug then c else d)).map (overrideBySlug cs) =
        D.map (overrideBySlug (c :: cs)) := by
      rw [List.map_map]
      exact List.map_congr_left (fun d _ => override_comm c cs hcnot d)
    have hfilt : cs.filter (fun x =>
          (D.map (fun d => if d.slug = c.slug then c else d)).all
            (fun d => ¬ d.slug = x.slug)) =
        cs.filter (fun x => D.all (fun d => ¬ d.slug = x.slug)) :=
      List.filter_congr (fun x _ => all_map_replace c D x)
    by_cases hany : D.any (fun d => d.slug = c.slug) = true
    · rw [if_pos hany]
      rw [ih (D.map (fun d => if d.slug = c.slug then c else d)) F hcs2
        (fun x hx f hf => hF x (List.mem_cons_of_mem c hx) f hf) hDrep]
      have hheadfilt : (c :: cs).filter (fun x => D.all (fun d => ¬ d.slug = x.slug)) =
          cs.filter (fun x => D.all (fun d => ¬ d.slug = x.slug)) := by
        obtain ⟨d0, hd0, hp0⟩ := List.any_eq_true.mp hany
        have hd0s : d0.slug = c.slug := by simpa using hp0
        simp [List.filter_cons]
        exact ⟨d0, hd0, hd0s⟩
      rw [hmap, hfilt, hheadfilt]
    · have hany2 : D.any (fun d => d.slug = c.slug) = false := by
        cases hv : D.any (fun d => d.slug = c.slug) with
        | false => rfl
        | true => exact absurd hv hany
      rw [if_neg (by simp [hany2])]
      rw [ih (D.map (fun d => if d.slug = c.slug then c else d)) (F ++ [c]) hcs2
        (fun x hx f hf => by
          rcases List.mem_append.mp hf with hfF | hfc
          · exact hF x (List.mem_cons_of_mem c hx) f hfF
          · have hfc2 : f = c := by simpa using hfc
            subst hfc2
            exact hc x hx) hDrep]
      have hnone : ∀ x ∈ D, ¬ x.slug = c.slug := by
        intro d hd heq
        have hone : D.any (fun x => x.slug = c.slug) = true :=
          List.any_eq_true.mpr ⟨d, hd, by simp [heq]⟩
        simp [hone] at hany2
      have hheadfilt : (c :: cs).filter (fun x => D.all (fun d => ¬ d.slug = x.slug)) =
          c :: cs.filter (fun x => D.all (fun d => ¬ d.slug = x.slug)) := by
        simp [List.filter_cons]
        exact hnone
      rw [hmap, hfilt, hheadfilt]
      simp [List.append_assoc]

/-- C7: for every custom list with pairwise distinct slugs (the collection
level invariant the schema enforces), getAllDomains equals the built-in list
with each slug matched entry replaced in place by its custom domain, followed
by the fresh slugged customs appended in input order. -/
theorem getAllDomains_merges (cs : List DomainConfig)
    (h : cs.Pairwise (fun a b => ¬ a.slug = b.slug)) :
    getAllDomains (some cs) = domains.map (overrideBySlug cs) ++ freshCustoms cs := by
  by_cases hnil : cs.length = 0
  · have hcs : cs = [] := List.length_eq_zero.mp hnil
    subst hcs
    have hid : domains.map (overrideBySlug []) = domains := by
      have h0 : ∀ d ∈ domains, overrideBySlug [] d = id d := fun d _ => rfl
      rw [List.map_congr_left h0, List.map_id]
    simp [getAllDomains, freshCustoms, hid]
  · have hstep : getAllDomains (some cs) = cs.foldl mergeStep domains := by
      simp [getAllDomains, hnil]
    have hdom : domains.Pairwise (fun a b => ¬ a.slug = b.slug) := by decide
    have hmain := foldl_mergeStep_char cs domains [] h
      (fun x _ f hf => absurd hf (List.not_mem_nil f)) hdom
    rw [List.append_nil] at hmain
    rw [hstep, hmain]
    simp [freshCustoms]

/-- Witness for C7: one override of the healthcare slug and one fresh finance
domain. -/
theorem getAllDomains_merges_witness :
    ([customHealthcareDomain, financeDomain].Pairwise (fun a b => ¬ a.slug = b.slug)) ∧
    getAllDomains (some [customHealthcareDomain, financeDomain]) =
      domains.map (overrideBySlug [customHealthcareDomain, financeDomain]) ++
        freshCustoms [customHealthcareDomain, financeDomain] :=
  ⟨by decide, getAllDomains_merges [customHealthcareDomain, financeDomain] (by decide)⟩
